import Mathlib

/-!
Verification of the multi-provider LLM orchestration layer and rate governor
of the `prompt-lab` backend, as a shallow embedding in Lean.

Python strings are modelled as `List Char` (so that all definitions compute);
`time.time()` values are modelled as exact rationals; each remote backend is
modelled as an oracle describing the outcome of every outbound call, and the
adapter / orchestrator code is translated into pure functions over those
oracles.
-/

set_option autoImplicit false

namespace PromptLab

/-- Python strings, modelled as character lists so every operation computes. -/
abbrev Str := List Char

/-- The provider enumeration, from `LLMProvider` in `core/entities/analytics.py`. -/
inductive LLMProvider
  | gemini
  | groq
  | openai
  | claude
deriving DecidableEq, Repr

/-- The error taxonomy of `core/ports/llm_port.py`: `LLMError` (generic) and its
subclasses `LLMTimeoutError`, `LLMRateLimitError`, `LLMQuotaExceededError`. -/
inductive ErrKind
  | generic
  | timeout
  | rateLimited
  | quotaExceeded
deriving DecidableEq, Repr

/-- A raised LLM error: its class (kind) plus its message. -/
structure LLMErr where
  kind : ErrKind
  msg : Str
deriving DecidableEq, Repr

/-- The parts of `LLMResponse` the orchestration claims depend on. -/
structure LLMResponse where
  content : Str
  provider : LLMProvider
deriving DecidableEq, Repr

/-! ## Fallback orchestrator (`LLMRepository` in `core/ports/llm_port.py`)

A provider's observable behaviour during one `generate_with_fallback` call is
its health-check answer and the outcome of `generate_response` (the adapters
never let `health_check` raise and only raise `LLMError` subclasses from
`generate_response`, which is proved separately over the adapter embeddings). -/

deriving instance DecidableEq for Except

structure ProviderBehavior where
  healthy : Bool
  gen : Except LLMErr LLMResponse
deriving DecidableEq, Repr

/-- Observable calls the orchestrator makes on providers. -/
inductive FBEvent
  | healthCheck (p : LLMProvider)
  | generate (p : LLMProvider)
deriving DecidableEq, Repr

/-- The provider an event touches. -/
def FBEvent.provider : FBEvent → LLMProvider
  | .healthCheck p => p
  | .generate p => p

/-- The fixed priority order from `LLMRepository.__init__` (lines 144-151). -/
def priorityOrder : List LLMProvider := [.gemini, .groq, .openai, .claude]

/-- `self._fallback_order`: the priority order restricted to configured providers. -/
def fallbackOrder (configured : LLMProvider → Bool) : List LLMProvider :=
  priorityOrder.filter configured

/-- `LLMRepository._get_provider_order` (lines 285-305), with `none` standing
for `preferred_provider=None`. -/
def getProviderOrder (configured : LLMProvider → Bool) :
    Option LLMProvider → List LLMProvider
  | some pref =>
    if configured pref then
      pref :: (fallbackOrder configured).filter (fun q => q != pref && configured q)
    else
      (fallbackOrder configured).filter (fun q => configured q)
  | none => (fallbackOrder configured).filter (fun q => configured q)

/-- The terminal error raised when no failure was recorded (line 205). -/
def noProvidersErr : LLMErr :=
  ⟨.generic, "All LLM providers are unavailable".toList⟩

/-- The provider loop of `generate_with_fallback` (lines 171-205): walk the
computed order; skip unconfigured providers; health-check each remaining one
and skip it on `False`; call `generate_response` and return on success; record
the error and continue on any `LLMError`; after exhaustion raise the last
recorded error, or the generic error if none was recorded.  The second
component is the trace of provider calls actually made. -/
def fallbackRun (behavior : LLMProvider → ProviderBehavior)
    (configured : LLMProvider → Bool) :
    List LLMProvider → Option LLMErr → Except LLMErr LLMResponse × List FBEvent
  | [], some e => (.error e, [])
  | [], none => (.error noProvidersErr, [])
  | p :: rest, last =>
    if configured p then
      if (behavior p).healthy then
        match (behavior p).gen with
        | .ok r => (.ok r, [.healthCheck p, .generate p])
        | .error e =>
          ((fallbackRun behavior configured rest (some e)).1,
            .healthCheck p :: .generate p :: (fallbackRun behavior configured rest (some e)).2)
      else
        ((fallbackRun behavior configured rest last).1,
          .healthCheck p :: (fallbackRun behavior configured rest last).2)
    else
      fallbackRun behavior configured rest last

/-- `LLMRepository.generate_with_fallback` (lines 153-205): result plus the
trace of health-check/generate calls. -/
def generate_with_fallback (behavior : LLMProvider → ProviderBehavior)
    (configured : LLMProvider → Bool) (preferred : Option LLMProvider) :
    Except LLMErr LLMResponse × List FBEvent :=
  fallbackRun behavior configured (getProviderOrder configured preferred) none

/-- A provider attempt succeeds when the provider is configured, passes its
health check, and its `generate_response` returns normally. -/
def attemptSucceeds (behavior : LLMProvider → ProviderBehavior)
    (configured : LLMProvider → Bool) (p : LLMProvider) : Bool :=
  configured p && (behavior p).healthy && (behavior p).gen.isOk

/-- The failure a single provider contributes to `last_error`, if any: only a
configured, healthy provider whose `generate_response` raises records one. -/
def genFailure (behavior : LLMProvider → ProviderBehavior)
    (configured : LLMProvider → Bool) (p : LLMProvider) : Option LLMErr :=
  if configured p && (behavior p).healthy then
    match (behavior p).gen with
    | .error e => some e
    | .ok _ => none
  else none

/-- The most recently recorded generate failure over an attempt order. -/
def lastFailure (behavior : LLMProvider → ProviderBehavior)
    (configured : LLMProvider → Bool) (order : List LLMProvider) : Option LLMErr :=
  order.reverse.findSome? (genFailure behavior configured)

/-- If every provider before `p` in the remaining order fails its attempt and
`p` is configured, healthy and generates `r`, the loop returns `r` and only
touches providers in `pre ++ [p]`. -/
theorem fallbackRun_first_success
    (behavior : LLMProvider → ProviderBehavior) (configured : LLMProvider → Bool)
    (p : LLMProvider) (r : LLMResponse) (post : List LLMProvider)
    (hc : configured p = true) (hh : (behavior p).healthy = true)
    (hg : (behavior p).gen = .ok r) :
    ∀ pre : List LLMProvider,
      (∀ q ∈ pre, attemptSucceeds behavior configured q = false) →
      ∀ last : Option LLMErr,
        (fallbackRun behavior configured (pre ++ p :: post) last).1 = .ok r ∧
        ∀ e ∈ (fallbackRun behavior configured (pre ++ p :: post) last).2,
          e.provider ∈ pre ++ [p] := by
  intro pre
  induction pre with
  | nil =>
    intro _ last
    refine ⟨?_, ?_⟩ <;>
      simp only [List.nil_append, fallbackRun, hc, hh, hg, if_true]
    intro e he
    simp only [List.mem_cons, List.not_mem_nil, or_false] at he
    rcases he with rfl | rfl <;> simp [FBEvent.provider]
  | cons q pre ih =>
    intro hfail last
    have hq : attemptSucceeds behavior configured q = false := hfail q (by simp)
    have hrest : ∀ x ∈ pre, attemptSucceeds behavior configured x = false :=
      fun x hx => hfail x (by simp [hx])
    rcases hcq : configured q with _ | _
    · simp only [List.cons_append, fallbackRun, hcq, Bool.false_eq_true, if_false]
      exact ⟨(ih hrest last).1,
        fun e he => List.mem_cons_of_mem q ((ih hrest last).2 e he)⟩
    · rcases hhq : (behavior q).healthy with _ | _
      · simp only [List.cons_append, fallbackRun, hcq, hhq, Bool.false_eq_true,
          if_true, if_false]
        refine ⟨(ih hrest last).1, ?_⟩
        intro e he
        simp only [List.mem_cons] at he
        rcases he with rfl | he
        · exact List.mem_cons_self _ _
        · exact List.mem_cons_of_mem q ((ih hrest last).2 e he)
      · rcases hgq : (behavior q).gen with e' | r'
        · simp only [List.cons_append, fallbackRun, hcq, hhq, hgq, if_true]
          refine ⟨(ih hrest (some e')).1, ?_⟩
          intro e he
          simp only [List.mem_cons] at he
          rcases he with rfl | rfl | he
          · exact List.mem_cons_self _ _
          · exact List.mem_cons_self _ _
          · exact List.mem_cons_of_mem q ((ih hrest (some e')).2 e he)
        · exfalso
          have hT : attemptSucceeds behavior configured q = true := by
            simp [attemptSucceeds, hcq, hhq, hgq, Except.isOk, Except.toBool]
          rw [hT] at hq
          exact Bool.noConfusion hq

/-- Claim C1: for every configured provider sequence in which the providers
before some provider `p` all fail (unhealthy, or `generate` raises) and `p`'s
`generate` succeeds, `generate_with_fallback` returns `p`'s response and no
provider after `p` in the attempt order is health-checked or invoked (every
call event touches a provider in `pre ++ [p]`). -/
theorem claim_C1
    (behavior : LLMProvider → ProviderBehavior) (configured : LLMProvider → Bool)
    (preferred : Option LLMProvider) (pre : List LLMProvider) (p : LLMProvider)
    (post : List LLMProvider) (r : LLMResponse)
    (horder : getProviderOrder configured preferred = pre ++ p :: post)
    (hpre : ∀ q ∈ pre, attemptSucceeds behavior configured q = false)
    (hc : configured p = true) (hh : (behavior p).healthy = true)
    (hg : (behavior p).gen = .ok r) :
    (generate_with_fallback behavior configured preferred).1 = .ok r ∧
    ∀ e ∈ (generate_with_fallback behavior configured preferred).2,
      e.provider ∈ pre ++ [p] := by
  unfold generate_with_fallback
  rw [horder]
  exact fallbackRun_first_success behavior configured p r post hc hh hg pre hpre none

/-- Behaviour used by the C1 witness: gemini is healthy but times out,
groq succeeds, nothing else is configured. -/
def c1Behavior : LLMProvider → ProviderBehavior
  | .gemini => ⟨true, .error ⟨.timeout, "Gemini request timeout: t".toList⟩⟩
  | .groq => ⟨true, .ok ⟨"hola".toList, .groq⟩⟩
  | _ => ⟨false, .error ⟨.generic, []⟩⟩

/-- Configuration used by the C1 witness: gemini and groq only. -/
def c1Configured : LLMProvider → Bool :=
  fun p => p == .gemini || p == .groq

theorem claim_C1_witness :
    (generate_with_fallback c1Behavior c1Configured none).1 =
      .ok ⟨"hola".toList, .groq⟩ ∧
    ∀ e ∈ (generate_with_fallback c1Behavior c1Configured none).2,
      e.provider ∈ [LLMProvider.gemini] ++ [LLMProvider.groq] :=
  claim_C1 c1Behavior c1Configured none [.gemini] .groq [] ⟨"hola".toList, .groq⟩
    (by decide) (by decide) (by decide) (by decide) (by decide)

/-- When every attempt in the remaining order fails, the loop raises the last
recorded failure, or the pending/default error when none is recorded. -/
theorem fallbackRun_all_fail
    (behavior : LLMProvider → ProviderBehavior) (configured : LLMProvider → Bool) :
    ∀ order : List LLMProvider,
      (∀ q ∈ order, attemptSucceeds behavior configured q = false) →
      ∀ last : Option LLMErr,
        (fallbackRun behavior configured order last).1 =
          .error ((lastFailure behavior configured order).getD
            (last.getD noProvidersErr)) := by
  intro order
  induction order with
  | nil =>
    intro _ last
    cases last <;> simp [fallbackRun, lastFailure]
  | cons q rest ih =>
    intro hfail last
    have hq : attemptSucceeds behavior configured q = false := hfail q (by simp)
    have hrest : ∀ x ∈ rest, attemptSucceeds behavior configured x = false :=
      fun x hx => hfail x (by simp [hx])
    have hlf : lastFailure behavior configured (q :: rest) =
        (lastFailure behavior configured rest).or (genFailure behavior configured q) := by
      simp only [lastFailure, List.reverse_cons, List.findSome?_append]
      cases h : List.findSome? (genFailure behavior configured) rest.reverse
      · cases hgf : genFailure behavior configured q <;>
          simp [List.findSome?, Option.or, hgf]
      · simp [Option.or]
    rcases hcq : configured q with _ | _
    · have hgf : genFailure behavior configured q = none := by
        simp [genFailure, hcq]
      rw [hlf, hgf]
      simp only [fallbackRun, hcq, Bool.false_eq_true, if_false]
      rw [ih hrest last]
      cases lastFailure behavior configured rest <;> simp [Option.or]
    · rcases hhq : (behavior q).healthy with _ | _
      · have hgf : genFailure behavior configured q = none := by
          simp [genFailure, hcq, hhq]
        rw [hlf, hgf]
        simp only [fallbackRun, hcq, hhq, Bool.false_eq_true, if_true, if_false]
        rw [ih hrest last]
        cases lastFailure behavior configured rest <;> simp [Option.or]
      · rcases hgq : (behavior q).gen with e' | r'
        · have hgf : genFailure behavior configured q = some e' := by
            simp [genFailure, hcq, hhq, hgq]
          rw [hlf, hgf]
          simp only [fallbackRun, hcq, hhq, hgq, if_true]
          rw [ih hrest (some e')]
          cases lastFailure behavior configured rest <;> simp [Option.or]
        · exfalso
          have hT : attemptSucceeds behavior configured q = true := by
            simp [attemptSucceeds, hcq, hhq, hgq, Except.isOk, Except.toBool]
          rw [hT] at hq
          exact Bool.noConfusion hq

/-- Claim C2: `generate_with_fallback` raises only after every candidate has
been skipped or has failed; the terminal error is the most recently recorded
generate failure (with that failure's kind and message), or the generic
"no providers available" error when no failure was recorded (empty
configuration or every health check false). -/
theorem claim_C2
    (behavior : LLMProvider → ProviderBehavior) (configured : LLMProvider → Bool)
    (preferred : Option LLMProvider)
    (hfail : ∀ q ∈ getProviderOrder configured preferred,
      attemptSucceeds behavior configured q = false) :
    (generate_with_fallback behavior configured preferred).1 =
      .error ((lastFailure behavior configured
        (getProviderOrder configured preferred)).getD noProvidersErr) := by
  unfold generate_with_fallback
  rw [fallbackRun_all_fail behavior configured _ hfail none]
  rfl

/-- Behaviour used by the C2 witness: gemini raises a rate-limit error, groq a
timeout, so the terminal error is groq's timeout (the most recent failure). -/
def c2Behavior : LLMProvider → ProviderBehavior
  | .gemini => ⟨true, .error ⟨.rateLimited, "Gemini rate limit exceeded: r".toList⟩⟩
  | .groq => ⟨true, .error ⟨.timeout, "Groq request timeout".toList⟩⟩
  | _ => ⟨false, .error ⟨.generic, []⟩⟩

/-- Configuration used by the C2 witness. -/
def c2Configured : LLMProvider → Bool :=
  fun p => p == .gemini || p == .groq

theorem claim_C2_witness :
    (generate_with_fallback c2Behavior c2Configured none).1 =
      .error ((lastFailure c2Behavior c2Configured
        (getProviderOrder c2Configured none)).getD noProvidersErr) :=
  claim_C2 c2Behavior c2Configured none (by decide)

/-- Claim C3: the attempt order puts a configured preferred provider first,
followed by the remaining configured providers in the fixed priority order
(gemini, groq, openai, claude) without duplicating the preferred provider;
with no usable preferred provider it is the priority order restricted to the
configured providers.  In particular, with gemini/groq/openai configured and
openai preferred, the order is [openai, gemini, groq]. -/
theorem claim_C3 (configured : LLMProvider → Bool) (pref : LLMProvider) :
    (configured pref = true →
      getProviderOrder configured (some pref) =
        pref :: priorityOrder.filter (fun q => configured q && q != pref)) ∧
    (configured pref = false →
      getProviderOrder configured (some pref) = priorityOrder.filter configured) ∧
    getProviderOrder configured none = priorityOrder.filter configured ∧
    getProviderOrder (fun q => q == .gemini || q == .groq || q == .openai)
      (some .openai) = [.openai, .gemini, .groq] := by
  refine ⟨?_, ?_, ?_, by decide⟩
  · intro h
    simp only [getProviderOrder, h, if_true, fallbackOrder, List.filter_filter]
    refine congrArg (pref :: ·) (List.filter_congr ?_)
    intro a _
    cases hca : configured a <;> cases hap : a == pref <;> simp [hca, hap, bne]
  · intro h
    simp only [getProviderOrder, h, Bool.false_eq_true, if_false, fallbackOrder,
      List.filter_filter]
    refine List.filter_congr ?_
    intro a _
    cases hca : configured a <;> simp [hca]
  · simp only [getProviderOrder, fallbackOrder, List.filter_filter]
    refine List.filter_congr ?_
    intro a _
    cases hca : configured a <;> simp [hca]

theorem claim_C3_witness :
    getProviderOrder (fun q => q == .groq || q == .openai) (some .openai) =
      .openai :: priorityOrder.filter
        (fun q => (q == .groq || q == .openai) && q != .openai) :=
  (claim_C3 (fun q => q == .groq || q == .openai) .openai).1 (by decide)

/-! ## Rate governor (`adapters/web/middleware/rate_limiter.py`)

The middleware keeps `self._local_cache : Dict[str, Tuple[int, float]]`; the
claims concern a single client, so the state is that client's entry.
`time.time()` values are modelled as exact rationals. -/

/-- A local-cache entry `(count, window_start)`. -/
abbrev RLEntry := ℕ × ℚ

/-- `RateLimitMiddleware._check_local_rate_limit` (lines 133-159) for one
client: the admission decision plus the client's updated entry. -/
def checkLocalRateLimit (limit window : ℕ) (now : ℚ) :
    Option RLEntry → Bool × Option RLEntry
  | some (count, start) =>
    if now - start ≥ (window : ℚ) then (true, some (1, now))
    else if count ≥ limit then (false, some (count, start))
    else (true, some (count + 1, start))
  | none => (true, some (1, now))

/-- A sequence of local-path checks for one client: decisions plus final entry. -/
def runLocalChecks (limit window : ℕ) :
    List ℚ → Option RLEntry → List Bool × Option RLEntry
  | [], entry => ([], entry)
  | now :: rest, entry =>
    ((checkLocalRateLimit limit window now entry).1 ::
        (runLocalChecks limit window rest (checkLocalRateLimit limit window now entry).2).1,
      (runLocalChecks limit window rest (checkLocalRateLimit limit window now entry).2).2)

/-- Outcome of one attempt at the shared (Redis) rate-limit path, abstracting
the counter reads/increments of `_check_redis_rate_limit` (lines 103-131):
either the path completes and returns a decision, or some call inside it
raises. -/
inductive RedisAttempt
  | ok (allowed : Bool)
  | raises
deriving DecidableEq, Repr

/-- `RateLimitMiddleware._check_rate_limit` (lines 85-101) for one client.
When the cache repository reports `_connected`, the Redis path decides and its
own `except` clause (lines 129-131) turns any raise into acceptance with the
local entry untouched; only when not connected does the local path decide.
(A raise before the branch, e.g. in `get_cache_repository`, is caught at
lines 98-101 and likewise yields acceptance with the local entry untouched.) -/
def checkRateLimit (limit window : ℕ) (connected : Bool) (redis : RedisAttempt)
    (now : ℚ) (entry : Option RLEntry) : Bool × Option RLEntry :=
  if connected then
    match redis with
    | .ok b => (b, entry)
    | .raises => (true, entry)
  else
    checkLocalRateLimit limit window now entry

/-- A sequence of full rate-limit checks with a fixed backend condition. -/
def runRateChecks (limit window : ℕ) (connected : Bool) (redis : RedisAttempt) :
    List ℚ → Option RLEntry → List Bool × Option RLEntry
  | [], entry => ([], entry)
  | now :: rest, entry =>
    ((checkRateLimit limit window connected redis now entry).1 ::
        (runRateChecks limit window connected redis rest
          (checkRateLimit limit window connected redis now entry).2).1,
      (runRateChecks limit window connected redis rest
        (checkRateLimit limit window connected redis now entry).2).2)

/-- The per-client invariant: a stored count lies between 1 and the limit. -/
def entryInv (limit : ℕ) : Option RLEntry → Prop
  | none => True
  | some (c, _) => 1 ≤ c ∧ c ≤ limit

/-- One local check preserves the count invariant when the limit is positive. -/
theorem checkLocal_inv (limit window : ℕ) (hlim : 1 ≤ limit) (now : ℚ)
    (entry : Option RLEntry) (h : entryInv limit entry) :
    entryInv limit (checkLocalRateLimit limit window now entry).2 := by
  cases entry with
  | none => simpa [checkLocalRateLimit, entryInv] using hlim
  | some cs =>
    obtain ⟨c, s⟩ := cs
    simp only [checkLocalRateLimit]
    by_cases h1 : now - s ≥ (window : ℚ)
    · simp [h1, entryInv, hlim]
    · by_cases h2 : c ≥ limit
      · simpa [h1, h2, entryInv] using h
      · simp only [entryInv] at h
        simp [h1, h2, entryInv]
        omega

/-- Any sequence of local checks preserves the count invariant. -/
theorem runLocal_inv (limit window : ℕ) (hlim : 1 ≤ limit) :
    ∀ (times : List ℚ) (entry : Option RLEntry), entryInv limit entry →
      entryInv limit (runLocalChecks limit window times entry).2 := by
  intro times
  induction times with
  | nil => intro entry h; simpa [runLocalChecks] using h
  | cons t rest ih =>
    intro entry h
    simp only [runLocalChecks]
    exact ih _ (checkLocal_inv limit window hlim t entry h)

/-- Claim C4 (amended: the configured limit must be at least 1): a stored
entry resets to `(1, now)` exactly when `now - window_start ≥ window_seconds`
(otherwise it is kept or merely incremented); starting from no entry, the
stored count never exceeds the limit; a check is rejected iff the entry exists,
its window has not expired, and its count has reached the limit; and with
limit 3 and window 60 three in-window requests are accepted, a fourth is
rejected, and a request after the window elapses is accepted with the count
reset to 1. -/
theorem claim_C4 (limit window : ℕ) (hlim : 1 ≤ limit) :
    (∀ (now s : ℚ) (c : ℕ), now - s ≥ (window : ℚ) →
        checkLocalRateLimit limit window now (some (c, s)) = (true, some (1, now))) ∧
    (∀ (now s : ℚ) (c : ℕ), ¬ now - s ≥ (window : ℚ) →
        (checkLocalRateLimit limit window now (some (c, s))).2 = some (c, s) ∨
        (checkLocalRateLimit limit window now (some (c, s))).2 = some (c + 1, s)) ∧
    (∀ (times : List ℚ) (c : ℕ) (s : ℚ),
        (runLocalChecks limit window times none).2 = some (c, s) → c ≤ limit) ∧
    (∀ (now : ℚ) (entry : Option RLEntry),
        (checkLocalRateLimit limit window now entry).1 = false ↔
        ∃ c s, entry = some (c, s) ∧ ¬ now - s ≥ (window : ℚ) ∧ limit ≤ c) ∧
    (runLocalChecks 3 60 [0, 10, 20, 30] none =
        ([true, true, true, false], some (3, 0)) ∧
      checkLocalRateLimit 3 60 60 (some (3, 0)) = (true, some (1, 60))) := by
  refine ⟨?_, ?_, ?_, ?_, by norm_num [runLocalChecks, checkLocalRateLimit],
    by norm_num [checkLocalRateLimit]⟩
  · intro now s c h
    simp [checkLocalRateLimit, h]
  · intro now s c h
    by_cases h2 : c ≥ limit
    · exact Or.inl (by simp [checkLocalRateLimit, h, h2])
    · exact Or.inr (by simp [checkLocalRateLimit, h, h2])
  · intro times c s hfin
    have := runLocal_inv limit window hlim times none trivial
    rw [hfin] at this
    exact this.2
  · intro now entry
    cases entry with
    | none => simp [checkLocalRateLimit]
    | some cs =>
      obtain ⟨c, s⟩ := cs
      simp only [checkLocalRateLimit]
      by_cases h1 : now - s ≥ (window : ℚ)
      · rw [if_pos h1]
        constructor
        · intro hf; exact Bool.noConfusion hf
        · rintro ⟨c', s', heq, hn, hc'⟩
          injection heq with h
          injection h with e1 e2
          subst e1; subst e2
          exact absurd h1 hn
      · rw [if_neg h1]
        by_cases h2 : c ≥ limit
        · rw [if_pos h2]
          constructor
          · intro _; exact ⟨c, s, rfl, h1, h2⟩
          · intro _; rfl
        · rw [if_neg h2]
          constructor
          · intro hf; exact Bool.noConfusion hf
          · rintro ⟨c', s', heq, hn, hc'⟩
            injection heq with h
            injection h with e1 e2
            subst e1
            exact absurd hc' h2

theorem claim_C4_witness :
    runLocalChecks 3 60 [0, 10, 20, 30] none =
        ([true, true, true, false], some (3, 0)) ∧
      checkLocalRateLimit 3 60 60 (some (3, 0)) = (true, some (1, 60)) :=
  (claim_C4 3 60 (by decide)).2.2.2.2

/-- Claim C4 as literally stated is false without a positivity assumption on
the limit: with limit 0 the very first accepted request stores count 1, so the
stored count exceeds the configured limit. -/
theorem claim_C4_counterexample :
    checkLocalRateLimit 0 60 0 none = (true, some (1, 0)) ∧ ¬ (1 ≤ (0 : ℕ)) :=
  ⟨rfl, by omega⟩

/-- Claim C5 (amended): the local path is consulted only when the shared
backend reports itself not connected; when the connected shared path raises,
the check fails open, accepting the request without touching the local entry,
so a persistently raising shared backend admits every request with no bound
from the local limit. -/
theorem claim_C5_amended (limit window : ℕ) :
    (∀ (redis : RedisAttempt) (now : ℚ) (entry : Option RLEntry),
        checkRateLimit limit window false redis now entry =
          checkLocalRateLimit limit window now entry) ∧
    (∀ (now : ℚ) (entry : Option RLEntry),
        checkRateLimit limit window true .raises now entry = (true, entry)) ∧
    (∀ (times : List ℚ) (entry : Option RLEntry),
        runRateChecks limit window true .raises times entry =
          (times.map fun _ => true, entry)) := by
  refine ⟨fun redis now entry => rfl, fun now entry => rfl, ?_⟩
  intro times
  induction times with
  | nil => intro entry; rfl
  | cons t rest ih =>
    intro entry
    simp [runRateChecks, checkRateLimit, List.map_cons, ih]

/-- Claim C5 as stated is false: with the shared backend connected but raising
on every call and limit 3, four requests are all accepted and the local entry
is never created, so admissions are not bounded by the local path's limit. -/
theorem claim_C5_counterexample :
    (runRateChecks 3 60 true .raises [0, 1, 2, 3] none).1 =
        [true, true, true, true] ∧
    (runRateChecks 3 60 true .raises [0, 1, 2, 3] none).2 = none ∧
    (runRateChecks 3 60 true .raises [0, 1, 2, 3] none).1.count true = 4 ∧
    ¬ ((4 : ℕ) ≤ 3) :=
  ⟨by decide, by decide, by decide, by omega⟩

/-! ## Error-message classification (adapter except-chains)

Python strings are `List Char`; `str.lower()` is `Char.toLower` over the list
(the adapters only classify ASCII error text), and `needle in hay` is
substring containment. -/

/-- Python `str.lower()` over the modelled string. -/
def lowerStr (s : Str) : Str := s.map Char.toLower

/-- Boolean test that the first list starts the second. -/
def isPrefixChars : Str → Str → Bool
  | [], _ => true
  | _ :: _, [] => false
  | a :: as, b :: bs => a == b && isPrefixChars as bs

/-- Python `needle in hay` substring containment. -/
def containsChars : Str → Str → Bool
  | [], needle => isPrefixChars needle []
  | c :: rest, needle => isPrefixChars needle (c :: rest) || containsChars rest needle

/-- The except-clause of `GeminiAdapter.generate_response` (lines 130-139):
quota/billing, then rate/limit, then timeout, each tested as a substring of
the lowercased message; anything else is generic. -/
def geminiClassify (msg : Str) : ErrKind :=
  if containsChars (lowerStr msg) "quota".toList ||
      containsChars (lowerStr msg) "billing".toList then .quotaExceeded
  else if containsChars (lowerStr msg) "rate".toList ||
      containsChars (lowerStr msg) "limit".toList then .rateLimited
  else if containsChars (lowerStr msg) "timeout".toList then .timeout
  else .generic

/-- The except-chain of `GroqAdapter.generate_response` (lines 148-160): the
single phrase `"rate limit"` is tested first, then quota/billing, then
timeout. -/
def groqClassify (msg : Str) : ErrKind :=
  if containsChars (lowerStr msg) "rate limit".toList then .rateLimited
  else if containsChars (lowerStr msg) "quota".toList ||
      containsChars (lowerStr msg) "billing".toList then .quotaExceeded
  else if containsChars (lowerStr msg) "timeout".toList then .timeout
  else .generic

/-- Exception outcomes of the OpenAI SDK call, one constructor per clause of
the except-chain of `OpenAIAdapter.generate_response` (lines 127-145). -/
inductive OpenAIExc
  | rateLimitExc (msg : Str)
  | apiTimeout (msg : Str)
  | apiConnection (msg : Str)
  | authentication (msg : Str)
  | permissionDenied (msg : Str)
  | notFound (msg : Str)
  | badRequest (msg : Str)
  | other (msg : Str)
deriving DecidableEq, Repr

/-- The kind assigned by the OpenAI except-chain: classification is by
exception type; only a bad-request message is inspected for quota/billing. -/
def openaiClassify : OpenAIExc → ErrKind
  | .rateLimitExc _ => .rateLimited
  | .apiTimeout _ => .timeout
  | .apiConnection _ => .generic
  | .authentication _ => .generic
  | .permissionDenied _ => .generic
  | .notFound _ => .generic
  | .badRequest msg =>
    if containsChars (lowerStr msg) "quota".toList ||
        containsChars (lowerStr msg) "billing".toList then .quotaExceeded
    else .generic
  | .other _ => .generic

/-- The error-kind mapping exactly as the spec and claim C6 state it, written
from the spec text for comparison with the adapters' actual classifiers. -/
def specErrorMapping (msg : Str) : ErrKind :=
  if containsChars (lowerStr msg) "quota".toList ||
      containsChars (lowerStr msg) "billing".toList then .quotaExceeded
  else if containsChars (lowerStr msg) "rate".toList ||
      containsChars (lowerStr msg) "limit".toList then .rateLimited
  else if containsChars (lowerStr msg) "timeout".toList then .timeout
  else .generic

/-- Claim C6 as stated is false for the Groq adapter: "limit reached"
contains "limit", so the claimed mapping yields RateLimited, but the Groq
except-chain only tests the phrase "rate limit" and classifies it Generic. -/
theorem claim_C6_counterexample :
    groqClassify "limit reached".toList = ErrKind.generic ∧
    specErrorMapping "limit reached".toList = ErrKind.rateLimited ∧
    ErrKind.generic ≠ ErrKind.rateLimited :=
  ⟨by decide, by decide, by decide⟩

/-- Claim C6 (amended): only the Gemini adapter classifies backend error
messages exactly per the stated mapping.  The Groq adapter classifies a
message RateLimited exactly when it contains the phrase "rate limit", and a
Timeout classification still requires "timeout" in the message; the OpenAI
adapter classifies by exception type, ignoring the message except for
bad-request errors, where quota/billing text yields QuotaExceeded. -/
theorem claim_C6 :
    (∀ msg : Str, geminiClassify msg = specErrorMapping msg) ∧
    (∀ msg : Str, groqClassify msg = ErrKind.rateLimited ↔
        containsChars (lowerStr msg) "rate limit".toList = true) ∧
    (∀ msg : Str, groqClassify msg = ErrKind.timeout →
        containsChars (lowerStr msg) "timeout".toList = true) ∧
    (∀ msg : Str, openaiClassify (.other msg) = ErrKind.generic) ∧
    openaiClassify (.badRequest "insufficient quota".toList) = ErrKind.quotaExceeded := by
  refine ⟨fun msg => rfl, ?_, ?_, fun msg => rfl, by decide⟩
  · intro msg
    unfold groqClassify
    by_cases h1 : containsChars (lowerStr msg) "rate limit".toList = true
    · rw [if_pos h1]
      exact iff_of_true rfl h1
    · rw [if_neg h1]
      by_cases h2 : (containsChars (lowerStr msg) "quota".toList ||
          containsChars (lowerStr msg) "billing".toList) = true
      · rw [if_pos h2]
        exact iff_of_false (by simp) h1
      · rw [if_neg h2]
        by_cases h3 : containsChars (lowerStr msg) "timeout".toList = true
        · rw [if_pos h3]
          exact iff_of_false (by simp) h1
        · rw [if_neg h3]
          exact iff_of_false (by simp) h1
  · intro msg
    unfold groqClassify
    by_cases h1 : containsChars (lowerStr msg) "rate limit".toList = true
    · rw [if_pos h1]
      intro h
      exact absurd h (by simp)
    · rw [if_neg h1]
      by_cases h2 : (containsChars (lowerStr msg) "quota".toList ||
          containsChars (lowerStr msg) "billing".toList) = true
      · rw [if_pos h2]
        intro h
        exact absurd h (by simp)
      · rw [if_neg h2]
        by_cases h3 : containsChars (lowerStr msg) "timeout".toList = true
        · rw [if_pos h3]
          intro _
          exact h3
        · rw [if_neg h3]
          intro h
          exact absurd h (by simp)

theorem claim_C6_witness :
    groqClassify "groq rate limit exceeded".toList = ErrKind.rateLimited ∧
    geminiClassify "insufficient quota".toList =
      specErrorMapping "insufficient quota".toList :=
  ⟨(claim_C6.2.1 "groq rate limit exceeded".toList).mpr (by decide),
    claim_C6.1 "insufficient quota".toList⟩

/-! ## Context formatting and payload construction -/

/-- A conversation message as the adapters consume and build it. -/
structure Msg where
  role : Str
  content : Str
deriving DecidableEq, Repr

/-- A context entry as the adapters handle it: a scalar value, a non-history
list value, or the `"history"` key with its message list (the shapes of
Python's context dict the adapters actually distinguish). -/
inductive CtxEntry
  | plain (key value : Str)
  | strList (key : Str) (values : List Str)
  | history (msgs : List Msg)
deriving DecidableEq, Repr

/-- Python `value[-5:]` on a message list: the most recent `n` entries. -/
def lastN (n : ℕ) (l : List Msg) : List Msg := l.drop (l.length - n)

/-- One `role: content` line of a rendered history block. -/
def msgLine (m : Msg) : Str := m.role ++ ": ".toList ++ m.content

/-- Python `sep.join(parts)`. -/
def joinChars (sep : Str) : List Str → Str
  | [] => []
  | [x] => x
  | x :: y :: rest => x ++ sep ++ joinChars sep (y :: rest)

/-- The key of a context entry. -/
def ctxKey : CtxEntry → Str
  | .plain k _ => k
  | .strList k _ => k
  | .history _ => "history".toList

/-- One rendered part of `GeminiAdapter._format_context` (lines 228-248): the
history part keeps only `value[-5:]`; the header string reproduces the
source file's bytes. -/
def geminiEntryText : CtxEntry → Str
  | .plain k v => k ++ ": ".toList ++ v
  | .strList k vs => k ++ ": ".toList ++ joinChars ", ".toList vs
  | .history msgs =>
    "Historial de conversaciÃ³n:\n".toList ++
      joinChars "\n".toList ((lastN 5 msgs).map msgLine)

/-- `GeminiAdapter._format_context`: parts joined by newlines. -/
def geminiFormatContext (ctx : List CtxEntry) : Str :=
  joinChars "\n".toList (ctx.map geminiEntryText)

/-- One rendered part of `OpenAIAdapter._format_context` (lines 242-262),
identical in shape to Gemini's. -/
def openaiEntryText : CtxEntry → Str
  | .plain k v => k ++ ": ".toList ++ v
  | .strList k vs => k ++ ": ".toList ++ joinChars ", ".toList vs
  | .history msgs =>
    "Historial de conversación:\n".toList ++
      joinChars "\n".toList ((lastN 5 msgs).map msgLine)

/-- `OpenAIAdapter._format_context`: parts joined by newlines. -/
def openaiFormatContext (ctx : List CtxEntry) : Str :=
  joinChars "\n".toList (ctx.map openaiEntryText)

/-- `GroqAdapter._build_messages` (lines 162-195): an optional system message
from `system_instruction`, then one message per history entry, then the user
prompt.  No truncation is applied to the history. -/
def groqBuildMessages (ctx : List CtxEntry) (prompt : Str) : List Msg :=
  (match ctx.find? (fun e => ctxKey e == "system_instruction".toList) with
   | some (.plain _ v) => [⟨"system".toList, v⟩]
   | _ => []) ++
  (match ctx.find? (fun e => ctxKey e == "history".toList) with
   | some (.history msgs) => msgs.map (fun m => ⟨m.role, m.content⟩)
   | _ => []) ++
  [⟨"user".toList, prompt⟩]

/-- A six-message history; the claim says only the last five may be included. -/
def c7History : List Msg :=
  [⟨"user".toList, "m1".toList⟩, ⟨"assistant".toList, "m2".toList⟩,
   ⟨"user".toList, "m3".toList⟩, ⟨"assistant".toList, "m4".toList⟩,
   ⟨"user".toList, "m5".toList⟩, ⟨"assistant".toList, "m6".toList⟩]

/-- Claim C7 as stated is false for the Groq adapter: with six history
entries, the oldest one (not among the most recent five) still appears in the
payload, which carries all six history messages plus the user prompt. -/
theorem claim_C7_counterexample :
    (⟨"user".toList, "m1".toList⟩ : Msg) ∈
      groqBuildMessages [.history c7History] "hola".toList ∧
    (⟨"user".toList, "m1".toList⟩ : Msg) ∉ lastN 5 c7History ∧
    (groqBuildMessages [.history c7History] "hola".toList).length = 7 :=
  ⟨by decide, by decide, by decide⟩

/-- Claim C7 (amended): the Gemini and OpenAI formatters build their history
block from `value[-5:]` — a suffix of the history of length `min 5 n` — so
earlier entries are omitted there; the Groq adapter instead includes every
history entry in its message payload. -/
theorem claim_C7 :
    (∀ msgs : List Msg, (lastN 5 msgs).length = min 5 msgs.length ∧
        ∃ pre, pre ++ lastN 5 msgs = msgs) ∧
    (∀ msgs : List Msg, geminiEntryText (.history msgs) =
        "Historial de conversaciÃ³n:\n".toList ++
          joinChars "\n".toList ((lastN 5 msgs).map msgLine)) ∧
    (∀ msgs : List Msg, openaiEntryText (.history msgs) =
        "Historial de conversación:\n".toList ++
          joinChars "\n".toList ((lastN 5 msgs).map msgLine)) ∧
    (∀ (ctx : List CtxEntry) (prompt : Str) (msgs : List Msg),
        ctx.find? (fun e => ctxKey e == "history".toList) = some (.history msgs) →
        ∀ m ∈ msgs, (⟨m.role, m.content⟩ : Msg) ∈ groqBuildMessages ctx prompt) := by
  refine ⟨?_, fun msgs => rfl, fun msgs => rfl, ?_⟩
  · intro msgs
    constructor
    · simp [lastN]
      omega
    · exact ⟨msgs.take (msgs.length - 5), List.take_append_drop _ _⟩
  · intro ctx prompt msgs hfind m hm
    unfold groqBuildMessages
    rw [hfind]
    refine List.mem_append.mpr (Or.inl (List.mem_append.mpr (Or.inr ?_)))
    exact List.mem_map.mpr ⟨m, hm, rfl⟩

theorem claim_C7_witness :
    (⟨"assistant".toList, "m6".toList⟩ : Msg) ∈
      groqBuildMessages [.history c7History] "hola".toList :=
  claim_C7.2.2.2 [.history c7History] "hola".toList c7History (by decide)
    ⟨"assistant".toList, "m6".toList⟩ (by decide)

/-! ## Per-adapter generation: retry, validation and error wrapping -/

/-- Outcome of one raw `generate_content` call inside
`GeminiAdapter._generate_with_retry`: the response text, or the message of a
raised exception. -/
inductive AttemptResult
  | text (s : Str)
  | raises (e : Str)
deriving DecidableEq, Repr

/-- One loop iteration up to the truthiness test (lines 271-274): non-empty
text succeeds; empty text raises `LLMError("Empty response from Gemini")`
inside the `try`, joining raised exceptions in the `except` handler. -/
def attemptOutcome : AttemptResult → Except Str Str
  | .text s => if s.isEmpty then .error "Empty response from Gemini".toList else .ok s
  | .raises e => .error e

/-- Result of the retry loop: its outcome, the number of backend calls made,
and the backoff delays (in seconds) slept before each re-invocation. -/
structure RetryOutcome where
  result : Except Str Str
  calls : ℕ
  delays : List ℕ
deriving DecidableEq, Repr

/-- The loop `for attempt in range(max_retries)` of
`GeminiAdapter._generate_with_retry` (lines 250-285), at loop index `attempt`
with `rem + 1` iterations left: a success returns immediately; a failure
either sleeps `2 ** attempt` seconds and retries when iterations remain, or
re-raises that failure on the final iteration.  (The zero-iteration case never
arises: `max_retries` is fixed at 3.) -/
def geminiRetryGo (backend : ℕ → AttemptResult) : ℕ → ℕ → RetryOutcome
  | _, 0 => ⟨.error [], 0, []⟩
  | attempt, rem + 1 =>
    match attemptOutcome (backend attempt) with
    | .ok s => ⟨.ok s, 1, []⟩
    | .error e =>
      match rem with
      | 0 => ⟨.error e, 1, []⟩
      | r + 1 =>
        ⟨(geminiRetryGo backend (attempt + 1) (r + 1)).result,
          (geminiRetryGo backend (attempt + 1) (r + 1)).calls + 1,
          2 ^ attempt :: (geminiRetryGo backend (attempt + 1) (r + 1)).delays⟩

/-- `_generate_with_retry` with its default `max_retries = 3`. -/
def geminiRetry (backend : ℕ → AttemptResult) : RetryOutcome :=
  geminiRetryGo backend 0 3

/-- Python `str.strip()` emptiness: the `LLMResponse.__post_init__` guard
`if not self.content.strip()` fires exactly when every char is whitespace. -/
def isBlank (s : Str) : Bool := s.all Char.isWhitespace

/-- The `LLMError` subclass raised by the Groq except-chain (lines 148-160)
for a non-timeout exception with message `msg`. -/
def groqErr (msg : Str) : LLMErr :=
  match groqClassify msg with
  | .rateLimited => ⟨.rateLimited, "Groq rate limit exceeded: ".toList ++ msg⟩
  | .quotaExceeded => ⟨.quotaExceeded, "Groq quota exceeded: ".toList ++ msg⟩
  | .timeout => ⟨.timeout, "Groq request timeout: ".toList ++ msg⟩
  | .generic => ⟨.generic, "Groq API error: ".toList ++ msg⟩

/-- Outcome of the single Groq SDK call in `GroqAdapter.generate_response`
(line 99): a response (content plus usage counts), an `asyncio.TimeoutError`,
or another raised exception with its message. -/
inductive GroqOutcome
  | response (content : Str) (promptTokens completionTokens : ℕ)
  | timeoutExc
  | raises (msg : Str)
deriving DecidableEq, Repr

/-- `GroqAdapter.generate_response` over the outcome of its single backend
call: whitespace-only content makes the `LLMResponse` constructor raise
`ValueError("Response content cannot be empty")` inside the `try`, classified
like any other message; a raised `asyncio.TimeoutError` maps to a timeout
error (line 146; the elapsed-seconds suffix of its message is not modelled). -/
def groqGenerate : GroqOutcome → Except LLMErr LLMResponse
  | .response content _ _ =>
    if isBlank content then
      .error (groqErr "Response content cannot be empty".toList)
    else .ok ⟨content, .groq⟩
  | .timeoutExc => .error ⟨.timeout, "Groq request timeout".toList⟩
  | .raises msg => .error (groqErr msg)

/-- The number of outbound SDK calls one `GroqAdapter.generate_response`
makes: the method has no retry loop, so the call at line 99 runs exactly once
whatever its outcome. -/
def groqGenerateCalls : GroqOutcome → ℕ := fun _ => 1

/-- The `LLMError` subclass raised by the OpenAI except-chain (lines 127-145)
for SDK exception `e`. -/
def openaiErr : OpenAIExc → LLMErr
  | .rateLimitExc m => ⟨.rateLimited, "OpenAI rate limit exceeded: ".toList ++ m⟩
  | .apiTimeout m => ⟨.timeout, "OpenAI request timeout: ".toList ++ m⟩
  | .apiConnection m => ⟨.generic, "OpenAI connection error: ".toList ++ m⟩
  | .authentication m => ⟨.generic, "OpenAI authentication error: ".toList ++ m⟩
  | .permissionDenied m => ⟨.generic, "OpenAI permission denied: ".toList ++ m⟩
  | .notFound m => ⟨.generic, "OpenAI model not found: ".toList ++ m⟩
  | .badRequest m =>
    if containsChars (lowerStr m) "quota".toList ||
        containsChars (lowerStr m) "billing".toList then
      ⟨.quotaExceeded, "OpenAI quota exceeded: ".toList ++ m⟩
    else ⟨.generic, "OpenAI bad request: ".toList ++ m⟩
  | .other m => ⟨.generic, "OpenAI generation failed: ".toList ++ m⟩

/-- Outcome of the single OpenAI SDK call in `OpenAIAdapter.generate_response`
(line 88). -/
inductive OpenAIOutcome
  | response (content : Str) (promptTokens completionTokens : ℕ)
  | exc (e : OpenAIExc)
deriving DecidableEq, Repr

/-- `OpenAIAdapter.generate_response` over the outcome of its single backend
call: whitespace-only content makes the `LLMResponse` constructor raise
inside the `try`, caught by the final generic handler (line 144). -/
def openaiGenerate : OpenAIOutcome → Except LLMErr LLMResponse
  | .response content _ _ =>
    if isBlank content then
      .error ⟨.generic,
        "OpenAI generation failed: Response content cannot be empty".toList⟩
    else .ok ⟨content, .openai⟩
  | .exc e => .error (openaiErr e)

/-- The number of outbound SDK calls one `OpenAIAdapter.generate_response`
makes: the method has no retry loop, so the call at line 88 runs exactly once. -/
def openaiGenerateCalls : OpenAIOutcome → ℕ := fun _ => 1

/-- The Gemini retry loop never makes more than 3 backend calls. -/
theorem geminiRetry_calls_le (backend : ℕ → AttemptResult) :
    (geminiRetry backend).calls ≤ 3 := by
  unfold geminiRetry
  cases h0 : attemptOutcome (backend 0) with
  | ok s => norm_num [geminiRetryGo, h0]
  | error e0 =>
    cases h1 : attemptOutcome (backend 1) with
    | ok s => norm_num [geminiRetryGo, h0, h1]
    | error e1 =>
      cases h2 : attemptOutcome (backend 2) with
      | ok s => norm_num [geminiRetryGo, h0, h1, h2]
      | error e2 => norm_num [geminiRetryGo, h0, h1, h2]

/-- A backend whose single Groq call raises a transient rate-limit error. -/
def c8FailingGroq : GroqOutcome := .raises "rate limit exceeded".toList

/-- Claim C8 as stated is false for the Groq adapter: its `generate_response`
has no retry loop, so on a transient (rate-limit) failure it makes exactly one
backend call — never the claimed retries — and surfaces the failure at once. -/
theorem claim_C8_counterexample :
    groqGenerateCalls c8FailingGroq = 1 ∧
    groqGenerate c8FailingGroq =
      .error ⟨.rateLimited, "Groq rate limit exceeded: rate limit exceeded".toList⟩ ∧
    ¬ groqGenerateCalls c8FailingGroq = 3 :=
  ⟨rfl, by decide, by decide⟩

/-- Claim C8 (amended): only the Gemini adapter retries — its loop invokes the
backend at most 3 times per generate call, and when every attempt fails
(raises or returns empty text) it makes exactly 3 calls, sleeps `2 ** attempt`
seconds before each re-invocation (delays 1 then 2), and surfaces the final
attempt's failure; the Groq and OpenAI adapters invoke their backend exactly
once per generate call, with no retry. -/
theorem claim_C8 :
    (∀ backend : ℕ → AttemptResult, (geminiRetry backend).calls ≤ 3) ∧
    (∀ backend : ℕ → AttemptResult,
        (∀ n, ∃ e, attemptOutcome (backend n) = .error e) →
        ∃ e2, attemptOutcome (backend 2) = .error e2 ∧
          geminiRetry backend = ⟨.error e2, 3, [1, 2]⟩) ∧
    (∀ o : GroqOutcome, groqGenerateCalls o = 1) ∧
    (∀ o : OpenAIOutcome, openaiGenerateCalls o = 1) := by
  refine ⟨fun backend => geminiRetry_calls_le backend, ?_,
    fun o => rfl, fun o => rfl⟩
  intro backend hall
  obtain ⟨e0, h0⟩ := hall 0
  obtain ⟨e1, h1⟩ := hall 1
  obtain ⟨e2, h2⟩ := hall 2
  exact ⟨e2, h2, by norm_num [geminiRetry, geminiRetryGo, h0, h1, h2]⟩

/-- An always-raising Gemini backend used by the C8 witness. -/
def c8GeminiBackend : ℕ → AttemptResult := fun _ => .raises "boom".toList

theorem claim_C8_witness :
    ∃ e2, attemptOutcome (c8GeminiBackend 2) = .error e2 ∧
      geminiRetry c8GeminiBackend = ⟨.error e2, 3, [1, 2]⟩ :=
  claim_C8.2.1 c8GeminiBackend (fun _ => ⟨"boom".toList, rfl⟩)

/-! ## Cost accounting -/

/-- The cost formula exactly as the spec and claim C9 state it:
`input_tokens/1e6 * input_price + output_tokens/1e6 * output_price`, written
from the spec text for comparison with the adapters' computations. -/
def specCost (priceIn priceOut : ℚ) (inTok outTok : ℕ) : ℚ :=
  (inTok : ℚ) / 1000000 * priceIn + (outTok : ℚ) / 1000000 * priceOut

/-- `GeminiAdapter._calculate_cost` (lines 294-298) with the pricing of its
`__init__` (lines 54-58): $0.075 and $0.30 per 1M tokens. -/
def geminiCalculateCost (inTok outTok : ℕ) : ℚ :=
  (inTok : ℚ) / 1000000 * (0.075 : ℚ) + (outTok : ℚ) / 1000000 * (0.30 : ℚ)

/-- The Groq pricing table from `GroqAdapter.__init__` (lines 42-58), keyed by
lowercased model name. -/
def groqPricing (modelName : Str) : ℚ × ℚ :=
  if containsChars (lowerStr modelName) "llama3-70b".toList then (0.59, 0.79)
  else if containsChars (lowerStr modelName) "mixtral".toList then (0.27, 0.27)
  else (0.27, 0.27)

/-- The inline cost computation of `GroqAdapter.generate_response`
(lines 113-116). -/
def groqCost (modelName : Str) (inTok outTok : ℕ) : ℚ :=
  (inTok : ℚ) / 1000000 * (groqPricing modelName).1 +
    (outTok : ℚ) / 1000000 * (groqPricing modelName).2

/-- The OpenAI pricing table from `OpenAIAdapter.__init__` (lines 43-54):
$0.50/$1.50 per 1M tokens, or $30/$60 for gpt-4 models. -/
def openaiPricing (modelName : Str) : ℚ × ℚ :=
  if containsChars (lowerStr modelName) "gpt-4".toList then (30.0, 60.0)
  else (0.50, 1.50)

/-- `OpenAIAdapter._calculate_cost` (lines 271-275). -/
def openaiCalculateCost (modelName : Str) (inTok outTok : ℕ) : ℚ :=
  (inTok : ℚ) / 1000000 * (openaiPricing modelName).1 +
    (outTok : ℚ) / 1000000 * (openaiPricing modelName).2

/-- Claim C9: every adapter computes cost as
`input/1e6 * input_price + output/1e6 * output_price` with its configured
prices, and the default OpenAI model prices ($0.50/1M in, $1.50/1M out) give
1000 input plus 500 output tokens a cost of exactly $0.00125
(= 0.0005 + 0.00075), computed here over exact rationals. -/
theorem claim_C9 :
    (∀ inTok outTok : ℕ, geminiCalculateCost inTok outTok =
        specCost 0.075 0.30 inTok outTok) ∧
    (∀ (modelName : Str) (inTok outTok : ℕ), groqCost modelName inTok outTok =
        specCost (groqPricing modelName).1 (groqPricing modelName).2 inTok outTok) ∧
    (∀ (modelName : Str) (inTok outTok : ℕ),
        openaiCalculateCost modelName inTok outTok =
          specCost (openaiPricing modelName).1 (openaiPricing modelName).2 inTok outTok) ∧
    openaiPricing "gpt-3.5-turbo".toList = (0.50, 1.50) ∧
    openaiCalculateCost "gpt-3.5-turbo".toList 1000 500 = 0.00125 ∧
    (0.00125 : ℚ) = 0.0005 + 0.00075 := by
  have hn : ¬ containsChars (lowerStr "gpt-3.5-turbo".toList) "gpt-4".toList = true := by
    decide
  refine ⟨fun i o => rfl, fun m i o => rfl, fun m i o => rfl, ?_, ?_, by norm_num⟩
  · unfold openaiPricing
    rw [if_neg hn]
  · unfold openaiCalculateCost openaiPricing
    rw [if_neg hn]
    norm_num

/-! ## Health checks -/

/-- The `LLMError` subclass raised by the Gemini except-clause (lines 130-139)
for an exception with message `msg`. -/
def geminiErr (msg : Str) : LLMErr :=
  match geminiClassify msg with
  | .quotaExceeded => ⟨.quotaExceeded, "Gemini quota exceeded: ".toList ++ msg⟩
  | .rateLimited => ⟨.rateLimited, "Gemini rate limit exceeded: ".toList ++ msg⟩
  | .timeout => ⟨.timeout, "Gemini request timeout: ".toList ++ msg⟩
  | .generic => ⟨.generic, "Gemini generation failed: ".toList ++ msg⟩

/-- `GeminiAdapter.generate_response` over the per-attempt backend outcomes:
run the retry loop; classify a surfaced exception by its message; a
whitespace-only response text makes the `LLMResponse` constructor raise inside
the `try`, classified like any other message. -/
def geminiGenerate (backend : ℕ → AttemptResult) : Except LLMErr LLMResponse :=
  match (geminiRetry backend).result with
  | .error e => .error (geminiErr e)
  | .ok text =>
    if isBlank text then .error (geminiErr "Response content cannot be empty".toList)
    else .ok ⟨text, .gemini⟩

/-- `GeminiAdapter.health_check` (lines 141-170): the probe generation runs
under a 5-second `asyncio.wait_for`; a timeout or any exception yields
`False`, an error-free completion yields `True`.  Totality of this function
over all probe outcomes models that the Python method never raises. -/
def geminiHealthCheck (timedOut : Bool) (backend : ℕ → AttemptResult) : Bool :=
  if timedOut then false
  else
    match geminiGenerate backend with
    | .ok _ => true
    | .error _ => false

/-- `GroqAdapter.health_check` (lines 197-218): no timeout wrapper; returns
`response is not None and len(response.content) > 0`, with any exception
yielding `False`. -/
def groqHealthCheck (o : GroqOutcome) : Bool :=
  match groqGenerate o with
  | .ok r => decide (0 < r.content.length)
  | .error _ => false

/-- `OpenAIAdapter.health_check` (lines 147-175): the probe generation runs
under a 15-second `asyncio.wait_for`; a timeout or any exception yields
`False`, an error-free completion yields `True`. -/
def openaiHealthCheck (timedOut : Bool) (o : OpenAIOutcome) : Bool :=
  if timedOut then false
  else
    match openaiGenerate o with
    | .ok _ => true
    | .error _ => false

/-- A validated response content is non-empty. -/
theorem length_pos_of_not_blank (s : Str) (h : isBlank s = false) : 0 < s.length := by
  cases s with
  | nil => simp [isBlank] at h
  | cons a l => simp

/-- Claim C10: each adapter's health check is a total boolean function of the
probe's outcome — the Python method catches every exception, so it never
raises — yielding `False` on a timeout and on every failing probe, and `True`
exactly when the probe generation completes without error (for Groq the
validated content is then non-empty, so its length test passes). -/
theorem claim_C10 :
    (∀ (timedOut : Bool) (backend : ℕ → AttemptResult),
        geminiHealthCheck timedOut backend = true ↔
        timedOut = false ∧ ∃ r, geminiGenerate backend = .ok r) ∧
    (∀ o : GroqOutcome, groqHealthCheck o = true ↔
        ∃ r, groqGenerate o = .ok r) ∧
    (∀ (timedOut : Bool) (o : OpenAIOutcome),
        openaiHealthCheck timedOut o = true ↔
        timedOut = false ∧ ∃ r, openaiGenerate o = .ok r) := by
  refine ⟨?_, ?_, ?_⟩
  · intro timedOut backend
    cases timedOut with
    | true => simp [geminiHealthCheck]
    | false =>
      cases hg : geminiGenerate backend with
      | ok r => simp [geminiHealthCheck, hg]
      | error e => simp [geminiHealthCheck, hg]
  · intro o
    cases o with
    | timeoutExc => simp [groqHealthCheck, groqGenerate]
    | raises m => simp [groqHealthCheck, groqGenerate]
    | response content pt ct =>
      cases hb : isBlank content with
      | true => simp [groqHealthCheck, groqGenerate, hb]
      | false =>
        have hlen := length_pos_of_not_blank content hb
        simp [groqHealthCheck, groqGenerate, hb, hlen]
  · intro timedOut o
    cases timedOut with
    | true => simp [openaiHealthCheck]
    | false =>
      cases hg : openaiGenerate o with
      | ok r => simp [openaiHealthCheck, hg]
      | error e => simp [openaiHealthCheck, hg]

theorem claim_C10_witness :
    groqHealthCheck (.response "hola".toList 1 1) = true ∧
    geminiHealthCheck true (fun _ => .text "hola".toList) = false :=
  ⟨(claim_C10.2.1 (.response "hola".toList 1 1)).mpr
      ⟨⟨"hola".toList, .groq⟩, by decide⟩,
    by
      cases hv : geminiHealthCheck true (fun _ => .text "hola".toList)
      · rfl
      · exact absurd (((claim_C10.1 true (fun _ => .text "hola".toList)).mp hv).1)
          (by simp)⟩

end PromptLab
